import Mathlib

/-!
Shallow embedding of the availability & slot-conflict engine of the
service-booking platform (files `app/api/routes/availability.py` and
`app/api/routes/bookings.py`).

Modelling conventions:
* a calendar date is a proleptic ordinal `Nat` (number of days since
  0001-01-01, which is a Monday), so Python's `date.weekday()` is `d % 7`
  (0 = Monday .. 6 = Sunday);
* a time of day is a `Nat` counting microseconds since midnight
  (`datetime.time` has microsecond resolution; `time.min = 0`,
  `time.max = 86399999999`);
* a `datetime` is an `Int` counting microseconds since the epoch;
  `datetime.combine` and `timedelta(minutes=...)` become arithmetic;
* SQLAlchemy queries become `List.filter` / `List.find?` over an explicit
  database snapshot; `db.add`/`commit` becomes appending to the list;
* `HTTPException` aborts become `Except` errors paired with the unchanged
  database snapshot;
* the `while` loop of the slot generator is embedded with explicit fuel
  (it is a genuine `while` in the source and does not terminate for a
  non-positive `interval_minutes`): `none` models a non-terminating run.
-/

namespace SBP

def usPerDay : Nat := 86400000000
def usPerMinute : Nat := 60000000
/-- Python's `time.min` (00:00:00.000000). -/
def timeMin : Nat := 0
/-- Python's `time.max` (23:59:59.999999). -/
def timeMax : Nat := 86399999999
/-- `datetime.combine(d, t)`. -/
def combine (d : Nat) (t : Nat) : Int := ((d * usPerDay + t : Nat) : Int)
/-- `dt + timedelta(minutes := m)`. -/
def addMinutes (dt : Int) (m : Int) : Int := dt + m * (usPerMinute : Int)
/-- Python's `date.weekday()`: 0 = Monday .. 6 = Sunday. -/
def pyWeekday (d : Nat) : Nat := d % 7
/-- `services` row; only `id` and `duration_minutes` are consumed by the core. -/
structure Service where
  id : Nat
  duration_minutes : Nat
  deriving Repr, DecidableEq
/-- `users` row; only `id` and `role` are consumed by the core. -/
structure User where
  id : Nat
  role : String
  deriving Repr, DecidableEq
/-- `provider_availabilities` row: a recurring weekly window
(weekday stored 1 = Monday .. 7 = Sunday). -/
structure ProviderAvailability where
  provider_id : Nat
  weekday : Nat
  start_time : Nat
  end_time : Nat
  is_active : Bool
  deriving Repr, DecidableEq
/-- `provider_timeoffs` row; `start_time`/`end_time` are nullable columns. -/
structure ProviderTimeOff where
  provider_id : Nat
  start_date : Nat
  end_date : Nat
  start_time : Option Nat
  end_time : Option Nat
  deriving Repr, DecidableEq
/-- `bookings` row (the fields the core consumes; `amount` is a monetary
value the core never reads). -/
structure Booking where
  id : Nat
  customer_id : Nat
  provider_id : Nat
  service_id : Nat
  booking_date : Nat
  booking_time : Nat
  address : String
  amount : Int
  status : String
  deriving Repr, DecidableEq
/-- The database snapshot the endpoints read. -/
structure DB where
  users : List User
  services : List Service
  availabilities : List ProviderAvailability
  timeoffs : List ProviderTimeOff
  bookings : List Booking
  deriving Repr, DecidableEq
/-- Request body `BookingCreate` of the booking-creation endpoint. -/
structure BookingCreate where
  provider_id : Nat
  service_id : Nat
  booking_date : Nat
  booking_time : Nat
  address : String
  amount : Int
  deriving Repr, DecidableEq
/-- `overlaps(start1, end1, start2, end2)`:
`max(start1, start2) < min(end1, end2)`. -/
def overlaps (start1 end1 start2 end2 : Int) : Bool :=
  max start1 start2 < min end1 end2
/-- `get_provider_bookings_on_date(db, provider_id, dt)`: one
`(start_datetime, end_datetime)` pair per booking of that provider on that
date; duration is the linked service's `duration_minutes`, or 60 when the
service row is missing. -/
def get_provider_bookings_on_date (db : DB) (provider_id : Nat) (dt : Nat) :
    List (Int × Int) :=
  let rows := db.bookings.filter fun r =>
    r.provider_id == provider_id && r.booking_date == dt
  rows.map fun r =>
    let svc := db.services.find? fun s => s.id == r.service_id
    let duration : Nat := match svc with
      | some s => s.duration_minutes
      | none => 60
    let start_dt := combine r.booking_date r.booking_time
    let end_dt := addMinutes start_dt duration
    (start_dt, end_dt)
/-- The dates `cur` iterated by the `while cur <= t.end_date` loop of
`is_blocked_by_timeoff`, in order. -/
def timeoffDates (t : ProviderTimeOff) : List Nat :=
  List.range' t.start_date (t.end_date + 1 - t.start_date)
/-- The blocked interval a time-off rule produces for one date `cur`: the
rule's times anchored to `cur` when both are set (`if t.start_time and
t.end_time`), otherwise the full day `[time.min, time.max]`. -/
def timeoffBlock (t : ProviderTimeOff) (cur : Nat) : Int × Int :=
  match t.start_time, t.end_time with
  | some st, some et => (combine cur st, combine cur et)
  | _, _ => (combine cur timeMin, combine cur timeMax)
/-- `is_blocked_by_timeoff(db, provider_id, slot_start_dt, slot_end_dt)`. -/
def is_blocked_by_timeoff (db : DB) (provider_id : Nat)
    (slot_start_dt slot_end_dt : Int) : Bool :=
  (db.timeoffs.filter fun t => t.provider_id == provider_id).any fun t =>
    (timeoffDates t).any fun cur =>
      let b := timeoffBlock t cur
      overlaps b.1 b.2 slot_start_dt slot_end_dt
/-- One booking-conflict scan of the generator's inner `for b_start, b_end
in existing_bookings` loop. -/
def slotConflicts (existing : List (Int × Int))
    (slot_start slot_end : Int) : Bool :=
  existing.any fun b => overlaps b.1 b.2 slot_start slot_end
/-- The `while slot_start + timedelta(minutes=duration) <= window_end` loop
of `get_available_slots_for_date`, for one availability window, with
explicit fuel; `none` models a run that has not terminated within `fuel`
iterations. `acc` is the `slots` list accumulated so far. -/
def slotLoop (db : DB) (provider_id : Nat) (existing : List (Int × Int))
    (duration : Nat) (interval_minutes : Int) (window_end : Int) :
    Nat → Int → List Int → Option (List Int)
  | 0, _, _ => none
  | fuel + 1, slot_start, acc =>
    if addMinutes slot_start duration ≤ window_end then
      let slot_end := addMinutes slot_start duration
      if slotConflicts existing slot_start slot_end then
        slotLoop db provider_id existing duration interval_minutes window_end
          fuel (addMinutes slot_start interval_minutes) acc
      else if is_blocked_by_timeoff db provider_id slot_start slot_end then
        slotLoop db provider_id existing duration interval_minutes window_end
          fuel (addMinutes slot_start interval_minutes) acc
      else
        slotLoop db provider_id existing duration interval_minutes window_end
          fuel (addMinutes slot_start interval_minutes) (acc ++ [slot_start])
    else
      some acc
/-- The `for w in avail_windows` loop: each window's `while` loop continues
filling the shared `slots` list. -/
def slotWindows (db : DB) (provider_id : Nat) (existing : List (Int × Int))
    (duration : Nat) (interval_minutes : Int) (target_date : Nat) (fuel : Nat) :
    List ProviderAvailability → List Int → Option (List Int)
  | [], acc => some acc
  | w :: ws, acc =>
    match slotLoop db provider_id existing duration interval_minutes
        (combine target_date w.end_time) fuel (combine target_date w.start_time) acc with
    | none => none
    | some acc' =>
      slotWindows db provider_id existing duration interval_minutes target_date fuel ws acc'
/-- The active weekly windows the generator and the validator both query:
`provider_id` matches, `weekday` matches, `is_active` is true. -/
def availWindows (db : DB) (provider_id weekday : Nat) : List ProviderAvailability :=
  db.availabilities.filter fun a =>
    a.provider_id == provider_id && a.weekday == weekday && a.is_active
/-- `GET /availability/provider/{provider_id}/slots`
(`get_available_slots_for_date`).  The endpoint emits each slot start as an
ISO string; here the instants themselves are returned.  `none` models a
non-terminating run (the source's loop does not advance when
`interval_minutes <= 0`); `some (.error e)` an `HTTPException`;
`some (.ok slots)` the returned list. -/
def get_available_slots_for_date (fuel : Nat) (db : DB) (provider_id service_id : Nat)
    (target_date : Nat) (interval_minutes : Int) :
    Option (Except String (List Int)) :=
  match db.services.find? fun s => s.id == service_id with
  | none => some (.error "Service not found")
  | some service =>
    let duration := service.duration_minutes
    let weekday := pyWeekday target_date + 1
    let windows := availWindows db provider_id weekday
    let existing := get_provider_bookings_on_date db provider_id target_date
    (slotWindows db provider_id existing duration interval_minutes target_date
      fuel windows []).map .ok
/-- The distinct `HTTPException`s `create_booking` can raise, in source
order. -/
inductive BookingError where
  | onlyCustomers
  | serviceNotFound
  | providerNotFound
  | noAvailability
  | outsideAvailability
  | overlapsExisting
  | timeOff
  deriving Repr, DecidableEq
/-- `POST /bookings/customer` (`create_booking`): on success the new
`pending` booking is persisted (appended) and returned; on any
`HTTPException` the snapshot is returned unchanged. -/
def create_booking (db : DB) (current_user : User) (booking : BookingCreate) :
    Except BookingError Booking × DB :=
  if current_user.role ≠ "customer" then (.error .onlyCustomers, db)
  else
    match db.services.find? fun s => s.id == booking.service_id with
    | none => (.error .serviceNotFound, db)
    | some service =>
      match db.users.find? fun u =>
          u.id == booking.provider_id && u.role == "provider" with
      | none => (.error .providerNotFound, db)
      | some _ =>
        let weekday := pyWeekday booking.booking_date + 1
        let requested_start := combine booking.booking_date booking.booking_time
        let requested_end := addMinutes requested_start service.duration_minutes
        let windows := availWindows db booking.provider_id weekday
        if windows.isEmpty then (.error .noAvailability, db)
        else
          let ok_window := windows.any fun w =>
            combine booking.booking_date w.start_time ≤ requested_start &&
            requested_end ≤ combine booking.booking_date w.end_time
          if !ok_window then (.error .outsideAvailability, db)
          else
            let existing := get_provider_bookings_on_date db booking.provider_id
              booking.booking_date
            if slotConflicts existing requested_start requested_end then
              (.error .overlapsExisting, db)
            else if is_blocked_by_timeoff db booking.provider_id
                requested_start requested_end then
              (.error .timeOff, db)
            else
              let new_booking : Booking :=
                { id := db.bookings.length
                  customer_id := current_user.id
                  provider_id := booking.provider_id
                  service_id := booking.service_id
                  booking_date := booking.booking_date
                  booking_time := booking.booking_time
                  address := booking.address
                  amount := booking.amount
                  status := "pending" }
              (.ok new_booking, { db with bookings := db.bookings ++ [new_booking] })
/-- `db.query(Booking).filter(Booking.id == booking_id).first()`. -/
def findBooking (db : DB) (booking_id : Nat) : Option Booking :=
  db.bookings.find? fun b => b.id == booking_id
/-- The `booking.status = new_status; db.commit()` write: the found row is
updated in place. -/
def setStatus (db : DB) (booking_id : Nat) (new_status : String) : DB :=
  { db with bookings := db.bookings.map fun b =>
      if b.id == booking_id then { b with status := new_status } else b }
/-- `POST /bookings/{booking_id}/cancel` (`cancel_booking`). -/
def cancel_booking (db : DB) (current_user : User) (booking_id : Nat) :
    Except String Booking × DB :=
  if current_user.role ≠ "customer" then (.error "Customers only", db)
  else
    match findBooking db booking_id with
    | none => (.error "Booking not found", db)
    | some booking =>
      if booking.customer_id ≠ current_user.id then (.error "Not your booking", db)
      else if booking.status ≠ "pending" then (.error "Cannot cancel", db)
      else
        (.ok { booking with status := "canceled" }, setStatus db booking_id "canceled")
/-- `POST /bookings/{booking_id}/accept` (`accept_booking`). -/
def accept_booking (db : DB) (current_user : User) (booking_id : Nat) :
    Except String Booking × DB :=
  if current_user.role ≠ "provider" then (.error "Providers only", db)
  else
    match findBooking db booking_id with
    | none => (.error "Booking not found", db)
    | some booking =>
      if booking.provider_id ≠ current_user.id then (.error "Not your booking", db)
      else if booking.status ≠ "pending" then (.error "Booking already handled", db)
      else
        (.ok { booking with status := "accepted" }, setStatus db booking_id "accepted")
/-- `POST /bookings/{booking_id}/reject` (`reject_booking`). -/
def reject_booking (db : DB) (current_user : User) (booking_id : Nat) :
    Except String Booking × DB :=
  if current_user.role ≠ "provider" then (.error "Providers only", db)
  else
    match findBooking db booking_id with
    | none => (.error "Booking not found", db)
    | some booking =>
      if booking.provider_id ≠ current_user.id then (.error "Not your booking", db)
      else if booking.status ≠ "pending" then (.error "Booking already handled", db)
      else
        (.ok { booking with status := "rejected" }, setStatus db booking_id "rejected")
/-- `POST /bookings/{booking_id}/complete` (`complete_booking`). -/
def complete_booking (db : DB) (current_user : User) (booking_id : Nat) :
    Except String Booking × DB :=
  if current_user.role ≠ "provider" then (.error "Providers only", db)
  else
    match findBooking db booking_id with
    | none => (.error "Booking not found", db)
    | some booking =>
      if booking.provider_id ≠ current_user.id then (.error "Not your booking", db)
      else if booking.status ≠ "accepted" then
        (.error "Only accepted bookings can be completed", db)
      else
        (.ok { booking with status := "completed" }, setStatus db booking_id "completed")
/-- The service duration the occupancy computation resolves for a booking:
the linked service's `duration_minutes`, or 60 when the row is missing. -/
def serviceDuration (db : DB) (service_id : Nat) : Nat :=
  match db.services.find? fun s => s.id == service_id with
  | some s => s.duration_minutes
  | none => 60
/-- The occupancy row built for one booking: its start instant and the end
instant obtained from the resolved service duration. -/
def occupancyOf (db : DB) (r : Booking) : Int × Int :=
  (combine r.booking_date r.booking_time,
   addMinutes (combine r.booking_date r.booking_time) (serviceDuration db r.service_id))
/-- Scenario-1 snapshot: one provider (user 1), one 60-minute service,
a single active Monday 09:00-17:00 window, no bookings, no time-off.
User 10 is a customer. -/
def mondayOpenDB : DB :=
  { users := [⟨10, "customer"⟩, ⟨1, "provider"⟩]
    services := [⟨1, 60⟩]
    availabilities := [⟨1, 1, 32400000000, 61200000000, true⟩]
    timeoffs := []
    bookings := [] }
/-- Scenario-2 snapshot: same as scenario 1 plus one booking occupying
Monday 10:00-11:00 (service 1 is 60 minutes long). -/
def mondayBookedDB : DB :=
  { mondayOpenDB with
    bookings := [⟨5, 10, 1, 1, 7, 36000000000, "addr", 0, "pending"⟩] }
/-- The slot list scenario 1 actually produces: 09:00 through 16:00 in
steps of 30 minutes - 15 starts. -/
def scenario1Slots : List Int :=
  (List.range 15).map fun k => combine 7 (32400000000 + k * 1800000000)
/-- The slot list scenario 2 actually produces: 09:00, then 11:00 through
16:00 in steps of 30 minutes. -/
def scenario2Slots : List Int :=
  combine 7 32400000000 ::
    ((List.range 11).map fun k => combine 7 (39600000000 + k * 1800000000))
/-- `requested_start = datetime.combine(booking_date, booking_time)` of the
booking validator. -/
def requestedStart (bk : BookingCreate) : Int :=
  combine bk.booking_date bk.booking_time
/-- Upper bound on the number of slots one window's loop can add: one more
than the number of whole steps fitting between the first and the last
admissible cursor (0 when no slot fits at all). -/
def loopBound (wend start : Int) (dur : Nat) (iv : Int) : Nat :=
  if addMinutes start dur ≤ wend then
    (wend - addMinutes start dur).toNat / (iv * (usPerMinute : Int)).toNat + 1
  else 0
/-- Fuel sufficient for one window's loop when the step is positive. -/
def windowFuel (date : Nat) (dur : Nat) (w : ProviderAvailability) : Nat :=
  (combine date w.end_time + 1 - addMinutes (combine date w.start_time) dur).toNat + 1
/-- Bound on the total number of generated slots: the per-window bounds
summed over the active windows of the weekday. -/
def slotsBound (db : DB) (provider_id service_id target_date : Nat) (iv : Int) : Nat :=
  ((availWindows db provider_id (pyWeekday target_date + 1)).map fun w =>
    loopBound (combine target_date w.end_time) (combine target_date w.start_time)
      (serviceDuration db service_id) iv).sum
/-! ### Theorems -/

/-- With a non-positive step the generator's `while` loop never advances past
its guard: once a slot fits, the loop runs forever (`none` for every fuel). -/
theorem slotLoop_none_of_nonpos (db : DB) (pid : Nat)
    (ex : List (Int × Int)) (dur : Nat) (iv : Int) (wend : Int)
    (hiv : iv ≤ 0) :
    ∀ fuel start acc, addMinutes start dur ≤ wend →
      slotLoop db pid ex dur iv wend fuel start acc = none := by
  intro fuel
  induction fuel with
  | zero => intro start acc _; rfl
  | succ n ih =>
    intro start acc h
    have h' : addMinutes (addMinutes start iv) dur ≤ wend := by
      simp only [addMinutes, usPerMinute] at h ⊢
      omega
    simp only [slotLoop, if_pos h]
    split
    · exact ih _ _ h'
    · split
      · exact ih _ _ h'
      · exact ih _ _ h'
/-- Every slot a terminating run of the window loop emits was either already
accumulated or lies at/after the cursor, fits before the window end, and
passes both conflict scans. -/
theorem slotLoop_mem (db : DB) (pid : Nat) (ex : List (Int × Int))
    (dur : Nat) (iv : Int) (wend : Int) :
    ∀ fuel start acc res,
      slotLoop db pid ex dur iv wend fuel start acc = some res →
      ∀ s ∈ res, s ∈ acc ∨
        (start ≤ s ∧ addMinutes s dur ≤ wend ∧
         slotConflicts ex s (addMinutes s dur) = false ∧
         is_blocked_by_timeoff db pid s (addMinutes s dur) = false) := by
  intro fuel
  induction fuel with
  | zero => intro start acc res h; cases h
  | succ n ih =>
    intro start acc res h s hs
    by_cases hcond : addMinutes start dur ≤ wend
    · by_cases hivpos : 0 < iv
      · have hstep : start ≤ addMinutes start iv := by
          simp only [addMinutes, usPerMinute]
          omega
        simp only [slotLoop, if_pos hcond] at h
        split at h
        · rcases ih _ _ _ h s hs with hacc | ⟨h1, h2⟩
          · exact Or.inl hacc
          · exact Or.inr ⟨le_trans hstep h1, h2⟩
        · split at h
          · rcases ih _ _ _ h s hs with hacc | ⟨h1, h2⟩
            · exact Or.inl hacc
            · exact Or.inr ⟨le_trans hstep h1, h2⟩
          · rcases ih _ _ _ h s hs with hacc | ⟨h1, h2⟩
            · rcases List.mem_append.mp hacc with hl | hr
              · exact Or.inl hl
              · have hse : s = start := by simpa using hr
                subst hse
                refine Or.inr ⟨le_refl _, hcond, ?_, ?_⟩
                · rename_i hconf _
                  simpa using hconf
                · rename_i hblock
                  simpa using hblock
            · exact Or.inr ⟨le_trans hstep h1, h2⟩
      · have := slotLoop_none_of_nonpos db pid ex dur iv wend (by omega)
          (n + 1) start acc hcond
        rw [this] at h
        cases h
    · simp only [slotLoop, if_neg hcond] at h
      cases h
      exact Or.inl hs
/-- Every slot a terminating run of the window fold emits was either already
accumulated or is justified by one of the windows. -/
theorem slotWindows_mem (db : DB) (pid : Nat) (ex : List (Int × Int))
    (dur : Nat) (iv : Int) (date : Nat) (fuel : Nat) :
    ∀ ws acc res,
      slotWindows db pid ex dur iv date fuel ws acc = some res →
      ∀ s ∈ res, s ∈ acc ∨
        ∃ w ∈ ws,
          combine date w.start_time ≤ s ∧
          addMinutes s dur ≤ combine date w.end_time ∧
          slotConflicts ex s (addMinutes s dur) = false ∧
          is_blocked_by_timeoff db pid s (addMinutes s dur) = false := by
  intro ws
  induction ws with
  | nil =>
    intro acc res h s hs
    cases h
    exact Or.inl hs
  | cons w ws ih =>
    intro acc res h s hs
    simp only [slotWindows] at h
    rcases hloop : slotLoop db pid ex dur iv (combine date w.end_time) fuel
        (combine date w.start_time) acc with _ | acc'
    · rw [hloop] at h; cases h
    · rw [hloop] at h
      rcases ih _ _ h s hs with hacc' | ⟨w', hw', hrest⟩
      · rcases slotLoop_mem db pid ex dur iv (combine date w.end_time) fuel
            (combine date w.start_time) acc acc' hloop s hacc' with hacc | ⟨h1, h2⟩
        · exact Or.inl hacc
        · exact Or.inr ⟨w, List.mem_cons_self _ _, h1, h2⟩
      · exact Or.inr ⟨w', List.mem_cons_of_mem _ hw', hrest⟩
/-- Changing every booking's `status` changes nothing in the occupancy scan:
neither the provider/date filter nor the duration lookup reads `status`. -/
theorem occupancy_status_helper (db : DB) (pid dt : Nat) (st : String) :
    ∀ l : List Booking,
      ((l.map fun b => { b with status := st }).filter fun r =>
          r.provider_id == pid && r.booking_date == dt).map (occupancyOf db) =
        (l.filter fun r => r.provider_id == pid && r.booking_date == dt).map
          (occupancyOf db) := by
  intro l
  induction l with
  | nil => rfl
  | cons b l ih =>
    simp only [List.map_cons, List.filter_cons]
    cases hcond : (b.provider_id == pid && b.booking_date == dt) with
    | false => simpa [hcond] using ih
    | true => simp [hcond, occupancyOf, ih]
/-- C2. The overlap primitive returns true exactly when
`max(startA, startB) < min(endA, endB)`, and two intervals that merely touch
at an endpoint (`startB = endA`, or `endB = startA`, here substituted) are
never a conflict. -/
theorem C2_overlap_primitive :
    ∀ startA endA startB endB : Int,
      (overlaps startA endA startB endB = true ↔
        max startA startB < min endA endB) ∧
      overlaps startA endA endA endB = false ∧
      overlaps startA endA startB startA = false := by
  intro a b c d
  refine ⟨by simp [overlaps], ?_, ?_⟩ <;>
    · simp only [overlaps, decide_eq_false_iff_not, not_lt]
      omega
/-- C5. Every slot the generator emits, together with its service-duration
interval, is fully contained in at least one of the provider's active weekly
windows for the target date's weekday. -/
theorem C5_slot_containment (fuel : Nat) (db : DB) (provider_id service_id : Nat)
    (target_date : Nat) (interval_minutes : Int) (res : List Int) (s : Int)
    (hgen : get_available_slots_for_date fuel db provider_id service_id target_date
      interval_minutes = some (.ok res))
    (hs : s ∈ res) :
    ∃ service, db.services.find? (fun sv => sv.id == service_id) = some service ∧
      ∃ w, w ∈ db.availabilities ∧ w.provider_id = provider_id ∧
        w.weekday = pyWeekday target_date + 1 ∧ w.is_active = true ∧
        combine target_date w.start_time ≤ s ∧
        addMinutes s service.duration_minutes ≤ combine target_date w.end_time := by
  unfold get_available_slots_for_date at hgen
  rcases hfind : db.services.find? fun sv => sv.id == service_id with _ | service
  · rw [hfind] at hgen
    simp at hgen
  · rw [hfind] at hgen
    simp only [Option.map_eq_some'] at hgen
    obtain ⟨l, hl, hok⟩ := hgen
    have hres : l = res := by
      cases hok
      rfl
    subst hres
    rcases slotWindows_mem db provider_id _ _ _ target_date fuel _ [] l hl s hs with
      hacc | ⟨w, hw, h1, h2, _, _⟩
    · cases hacc
    · unfold availWindows at hw
      rw [List.mem_filter] at hw
      obtain ⟨hmem, hp⟩ := hw
      simp only [Bool.and_eq_true, beq_iff_eq] at hp
      exact ⟨service, hfind, w, hmem, hp.1.1, hp.1.2, hp.2, h1, h2⟩
/-- C7. The occupancy index returns one interval
`[combine(date, booking_time), start + duration)` per booking of that
provider on that date, with duration defaulting to 60 when the service row
is missing, and booking `status` plays no role in it. -/
theorem C7_occupancy_materialization (db : DB) (provider_id dt : Nat) :
    get_provider_bookings_on_date db provider_id dt =
      ((db.bookings.filter fun r =>
          r.provider_id == provider_id && r.booking_date == dt).map fun r =>
        (combine r.booking_date r.booking_time,
         addMinutes (combine r.booking_date r.booking_time)
           (serviceDuration db r.service_id))) ∧
    (∀ st : String,
      get_provider_bookings_on_date
          { db with bookings := db.bookings.map fun b => { b with status := st } }
          provider_id dt =
        get_provider_bookings_on_date db provider_id dt) := by
  constructor
  · rfl
  · intro st
    exact occupancy_status_helper db provider_id dt st db.bookings
/-- C8. The time-off check returns true iff some time-off rule of the
provider has a date `d` inside its inclusive date range whose block
interval overlaps the slot; the block interval is the rule's times anchored
to `d` when both are set and the full day (00:00:00 to `time.max`)
otherwise, the mixed one-time-set case included. -/
theorem C8_timeoff_blocking (db : DB) (provider_id : Nat) (slot_start slot_end : Int) :
    (is_blocked_by_timeoff db provider_id slot_start slot_end = true ↔
      ∃ t ∈ db.timeoffs, t.provider_id = provider_id ∧
        ∃ d, t.start_date ≤ d ∧ d ≤ t.end_date ∧
          overlaps (timeoffBlock t d).1 (timeoffBlock t d).2 slot_start slot_end
            = true) ∧
    (∀ t : ProviderTimeOff, ∀ d st et,
      t.start_time = some st → t.end_time = some et →
      timeoffBlock t d = (combine d st, combine d et)) ∧
    (∀ t : ProviderTimeOff, ∀ d,
      t.start_time = none ∨ t.end_time = none →
      timeoffBlock t d = (combine d timeMin, combine d timeMax)) := by
  refine ⟨?_, ?_, ?_⟩
  · unfold is_blocked_by_timeoff
    rw [List.any_eq_true]
    constructor
    · rintro ⟨t, ht, hany⟩
      rw [List.mem_filter] at ht
      obtain ⟨htmem, htpid⟩ := ht
      rw [List.any_eq_true] at hany
      obtain ⟨d, hd, hov⟩ := hany
      rw [timeoffDates, List.mem_range'_1] at hd
      exact ⟨t, htmem, by simpa using htpid, d, by omega, by omega, by simpa using hov⟩
    · rintro ⟨t, htmem, htpid, d, hd1, hd2, hov⟩
      refine ⟨t, List.mem_filter.mpr ⟨htmem, by simp [htpid]⟩, ?_⟩
      rw [List.any_eq_true]
      refine ⟨d, ?_, by simpa using hov⟩
      rw [timeoffDates, List.mem_range'_1]
      omega
  · intro t d st et h1 h2
    simp [timeoffBlock, h1, h2]
  · intro t d h
    rcases h with h | h <;>
      rcases h1 : t.start_time with _ | st <;>
      rcases h2 : t.end_time with _ | et <;>
      simp_all [timeoffBlock]
/-- C3 counterexample. Scenario 1 yields 15 slots, not the 16 the claim
states: 09:00 through 16:00 in 30-minute steps is 15 starts. -/
theorem C3_sixteen_slots_cex :
    get_available_slots_for_date 20 mondayOpenDB 1 1 7 30 =
      some (.ok scenario1Slots) ∧
    scenario1Slots.length = 15 ∧ ¬ scenario1Slots.length = 16 := by
  refine ⟨rfl, rfl, by decide⟩
/-- C3 amended. Scenario 1 returns the 30-minute-stepped sequence from
09:00 to 16:00 - 15 slots in total. -/
theorem C3_scenario1 :
    get_available_slots_for_date 20 mondayOpenDB 1 1 7 30 =
      some (.ok scenario1Slots) ∧
    scenario1Slots.head? = some (combine 7 32400000000) ∧
    scenario1Slots.getLast? = some (combine 7 57600000000) ∧
    scenario1Slots.length = 15 := by
  refine ⟨rfl, by decide, by decide, rfl⟩
/-- C4 counterexample. In scenario 2 the slot 09:30 is NOT generated: with
a 60-minute service its interval 09:30-10:30 overlaps the 10:00-11:00
booking. -/
theorem C4_nine_thirty_cex :
    get_available_slots_for_date 20 mondayBookedDB 1 1 7 30 =
      some (.ok scenario2Slots) ∧
    combine 7 34200000000 ∉ scenario2Slots := by
  refine ⟨rfl, by decide⟩
/-- C4 amended. Scenario 2 keeps 09:00, drops 09:30 (it would end 10:30,
inside the booking), drops 10:00 and 10:30, and keeps 11:00 (touching the
booking's end is not a conflict). -/
theorem C4_scenario2 :
    get_available_slots_for_date 20 mondayBookedDB 1 1 7 30 =
      some (.ok scenario2Slots) ∧
    combine 7 32400000000 ∈ scenario2Slots ∧
    combine 7 34200000000 ∉ scenario2Slots ∧
    combine 7 36000000000 ∉ scenario2Slots ∧
    combine 7 37800000000 ∉ scenario2Slots ∧
    combine 7 39600000000 ∈ scenario2Slots := by
  refine ⟨rfl, by decide, by decide, by decide, by decide, by decide⟩
/-- C6. With a customer caller, `create_booking` checks, in order: service
exists, provider exists with provider role, some availability on the
weekday, containment of the requested interval in a window, occupancy
overlap, time-off; the first failure returns its specific error with the
snapshot unchanged, and on full pass a `pending` booking is appended and
returned. -/
theorem C6_validation_order (db : DB) (u : User) (bk : BookingCreate)
    (hrole : u.role = "customer") :
    (db.services.find? (fun s => s.id == bk.service_id) = none →
      create_booking db u bk = (.error .serviceNotFound, db)) ∧
    (∀ service,
      db.services.find? (fun s => s.id == bk.service_id) = some service →
      ((db.users.find? fun us =>
          us.id == bk.provider_id && us.role == "provider") = none →
        create_booking db u bk = (.error .providerNotFound, db)) ∧
      (∀ prov,
        (db.users.find? fun us =>
          us.id == bk.provider_id && us.role == "provider") = some prov →
        (availWindows db bk.provider_id (pyWeekday bk.booking_date + 1) = [] →
          create_booking db u bk = (.error .noAvailability, db)) ∧
        (availWindows db bk.provider_id (pyWeekday bk.booking_date + 1) ≠ [] →
          ((¬ ∃ w ∈ availWindows db bk.provider_id (pyWeekday bk.booking_date + 1),
              combine bk.booking_date w.start_time ≤ requestedStart bk ∧
              addMinutes (requestedStart bk) service.duration_minutes ≤
                combine bk.booking_date w.end_time) →
            create_booking db u bk = (.error .outsideAvailability, db)) ∧
          ((∃ w ∈ availWindows db bk.provider_id (pyWeekday bk.booking_date + 1),
              combine bk.booking_date w.start_time ≤ requestedStart bk ∧
              addMinutes (requestedStart bk) service.duration_minutes ≤
                combine bk.booking_date w.end_time) →
            (slotConflicts
                (get_provider_bookings_on_date db bk.provider_id bk.booking_date)
                (requestedStart bk)
                (addMinutes (requestedStart bk) service.duration_minutes) = true →
              create_booking db u bk = (.error .overlapsExisting, db)) ∧
            (slotConflicts
                (get_provider_bookings_on_date db bk.provider_id bk.booking_date)
                (requestedStart bk)
                (addMinutes (requestedStart bk) service.duration_minutes) = false →
              (is_blocked_by_timeoff db bk.provider_id (requestedStart bk)
                  (addMinutes (requestedStart bk) service.duration_minutes) = true →
                create_booking db u bk = (.error .timeOff, db)) ∧
              (is_blocked_by_timeoff db bk.provider_id (requestedStart bk)
                  (addMinutes (requestedStart bk) service.duration_minutes) = false →
                ∃ b, create_booking db u bk =
                    (.ok b, { db with bookings := db.bookings ++ [b] }) ∧
                  b.status = "pending")))))) := by
  have hnotrole : ¬ u.role ≠ "customer" := by simp [hrole]
  constructor
  · intro hserv
    unfold create_booking
    rw [if_neg hnotrole, hserv]
  · intro service hserv
    constructor
    · intro hprov
      unfold create_booking
      rw [if_neg hnotrole, hserv, hprov]
    · intro prov hprov
      constructor
      · intro hwin
        unfold create_booking
        rw [if_neg hnotrole, hserv, hprov]
        simp only [hwin, List.isEmpty_nil, if_pos]
      · intro hwin
        have hwinE : ¬ (availWindows db bk.provider_id
            (pyWeekday bk.booking_date + 1)).isEmpty = true := by
          simpa [List.isEmpty_iff] using hwin
        have hE : (availWindows db bk.provider_id
            (pyWeekday bk.booking_date + 1)).isEmpty = false := by
          rw [← Bool.not_eq_true]
          simpa [List.isEmpty_iff] using hwin
        constructor
        · intro hcont
          have hany : (availWindows db bk.provider_id
              (pyWeekday bk.booking_date + 1)).any (fun w =>
                combine bk.booking_date w.start_time ≤ requestedStart bk &&
                addMinutes (requestedStart bk) service.duration_minutes ≤
                  combine bk.booking_date w.end_time) = false := by
            rw [← Bool.not_eq_true, List.any_eq_true]
            simpa [requestedStart] using hcont
          simp only [requestedStart] at hany
          unfold create_booking
          rw [if_neg hnotrole]
          simp only [hserv, hprov, hE, hany, Bool.false_eq_true, if_false,
            Bool.not_false, if_true]
        · intro hcont
          have hany : (availWindows db bk.provider_id
              (pyWeekday bk.booking_date + 1)).any (fun w =>
                combine bk.booking_date w.start_time ≤ requestedStart bk &&
                addMinutes (requestedStart bk) service.duration_minutes ≤
                  combine bk.booking_date w.end_time) = true := by
            rw [List.any_eq_true]
            obtain ⟨w, hw, h1, h2⟩ := hcont
            refine ⟨w, hw, ?_⟩
            simp only [requestedStart] at h1 h2
            simp only [requestedStart, Bool.and_eq_true, decide_eq_true_eq]
            exact ⟨h1, h2⟩
          simp only [requestedStart] at hany
          constructor
          · intro hconf
            simp only [requestedStart] at hconf
            unfold create_booking
            rw [if_neg hnotrole]
            simp only [hserv, hprov, hE, hany, hconf, Bool.false_eq_true, if_false,
              Bool.not_true, if_true]
          · intro hconf
            simp only [requestedStart] at hconf
            constructor
            · intro hblock
              simp only [requestedStart] at hblock
              unfold create_booking
              rw [if_neg hnotrole]
              simp only [hserv, hprov, hE, hany, hconf, hblock, Bool.false_eq_true,
                if_false, Bool.not_true, if_true]
            · intro hblock
              simp only [requestedStart] at hblock
              refine ⟨Booking.mk db.bookings.length u.id bk.provider_id
                bk.service_id bk.booking_date bk.booking_time bk.address
                bk.amount "pending", ?_, rfl⟩
              unfold create_booking
              rw [if_neg hnotrole]
              simp only [hserv, hprov, hE, hany, hconf, hblock, Bool.false_eq_true,
                if_false, Bool.not_true, if_true]
/-- C6 witness: at a concrete snapshot whose services list has no service
99, the validator rejects with `serviceNotFound` and leaves the snapshot
unchanged. -/
theorem C6_validation_order_witness :
    create_booking mondayOpenDB (User.mk 10 "customer")
        (BookingCreate.mk 1 99 7 0 "a" 0) =
      (.error .serviceNotFound, mondayOpenDB) :=
  (C6_validation_order mondayOpenDB (User.mk 10 "customer")
    (BookingCreate.mk 1 99 7 0 "a" 0) rfl).1 rfl
/-- C10. The endpoint-enforced status machine: accept and reject succeed
only on a `pending` booking (moving it to `accepted` / `rejected`),
complete only on an `accepted` one (moving it to `completed`), cancel only
on a `pending` one owned by the calling customer (moving it to `canceled`);
every failing request returns an error and leaves the snapshot - hence
every status - unchanged. -/
theorem C10_status_state_machine (db : DB) (u : User) (booking_id : Nat) :
    ((∃ r, (accept_booking db u booking_id).1 = .ok r) →
      ∃ b, findBooking db booking_id = some b ∧ b.status = "pending" ∧
        accept_booking db u booking_id =
          (.ok { b with status := "accepted" },
           setStatus db booking_id "accepted")) ∧
    ((∀ r, (accept_booking db u booking_id).1 ≠ .ok r) →
      (accept_booking db u booking_id).2 = db) ∧
    ((∃ r, (reject_booking db u booking_id).1 = .ok r) →
      ∃ b, findBooking db booking_id = some b ∧ b.status = "pending" ∧
        reject_booking db u booking_id =
          (.ok { b with status := "rejected" },
           setStatus db booking_id "rejected")) ∧
    ((∀ r, (reject_booking db u booking_id).1 ≠ .ok r) →
      (reject_booking db u booking_id).2 = db) ∧
    ((∃ r, (complete_booking db u booking_id).1 = .ok r) →
      ∃ b, findBooking db booking_id = some b ∧ b.status = "accepted" ∧
        complete_booking db u booking_id =
          (.ok { b with status := "completed" },
           setStatus db booking_id "completed")) ∧
    ((∀ r, (complete_booking db u booking_id).1 ≠ .ok r) →
      (complete_booking db u booking_id).2 = db) ∧
    ((∃ r, (cancel_booking db u booking_id).1 = .ok r) →
      ∃ b, findBooking db booking_id = some b ∧ b.status = "pending" ∧
        b.customer_id = u.id ∧
        cancel_booking db u booking_id =
          (.ok { b with status := "canceled" },
           setStatus db booking_id "canceled")) ∧
    ((∀ r, (cancel_booking db u booking_id).1 ≠ .ok r) →
      (cancel_booking db u booking_id).2 = db) := by
  refine ⟨?_, ?_, ?_, ?_, ?_, ?_, ?_, ?_⟩
  · rintro ⟨r, hr⟩
    unfold accept_booking at hr
    split at hr
    next => simp at hr
    next hrole2 =>
      rcases hfb : findBooking db booking_id with _ | b
      · simp only [hfb] at hr
        simp at hr
      · simp only [hfb] at hr
        split at hr
        next => simp at hr
        next hown =>
          split at hr
          next => simp at hr
          next hst =>
            refine ⟨b, by simp [hfb], not_ne_iff.mp hst, ?_⟩
            unfold accept_booking
            rw [if_neg hrole2]
            simp only [hfb]
            rw [if_neg hown, if_neg hst]
  · intro hfail
    have halt : (accept_booking db u booking_id).2 = db ∨
        ∃ r, (accept_booking db u booking_id).1 = .ok r := by
      unfold accept_booking
      split
      · exact Or.inl rfl
      · split
        · exact Or.inl rfl
        · split
          · exact Or.inl rfl
          · split
            · exact Or.inl rfl
            · exact Or.inr ⟨_, rfl⟩
    rcases halt with h | ⟨r, hr⟩
    · exact h
    · exact absurd hr (hfail r)
  · rintro ⟨r, hr⟩
    unfold reject_booking at hr
    split at hr
    next => simp at hr
    next hrole2 =>
      rcases hfb : findBooking db booking_id with _ | b
      · simp only [hfb] at hr
        simp at hr
      · simp only [hfb] at hr
        split at hr
        next => simp at hr
        next hown =>
          split at hr
          next => simp at hr
          next hst =>
            refine ⟨b, by simp [hfb], not_ne_iff.mp hst, ?_⟩
            unfold reject_booking
            rw [if_neg hrole2]
            simp only [hfb]
            rw [if_neg hown, if_neg hst]
  · intro hfail
    have halt : (reject_booking db u booking_id).2 = db ∨
        ∃ r, (reject_booking db u booking_id).1 = .ok r := by
      unfold reject_booking
      split
      · exact Or.inl rfl
      · split
        · exact Or.inl rfl
        · split
          · exact Or.inl rfl
          · split
            · exact Or.inl rfl
            · exact Or.inr ⟨_, rfl⟩
    rcases halt with h | ⟨r, hr⟩
    · exact h
    · exact absurd hr (hfail r)
  · rintro ⟨r, hr⟩
    unfold complete_booking at hr
    split at hr
    next => simp at hr
    next hrole2 =>
      rcases hfb : findBooking db booking_id with _ | b
      · simp only [hfb] at hr
        simp at hr
      · simp only [hfb] at hr
        split at hr
        next => simp at hr
        next hown =>
          split at hr
          next => simp at hr
          next hst =>
            refine ⟨b, by simp [hfb], not_ne_iff.mp hst, ?_⟩
            unfold complete_booking
            rw [if_neg hrole2]
            simp only [hfb]
            rw [if_neg hown, if_neg hst]
  · intro hfail
    have halt : (complete_booking db u booking_id).2 = db ∨
        ∃ r, (complete_booking db u booking_id).1 = .ok r := by
      unfold complete_booking
      split
      · exact Or.inl rfl
      · split
        · exact Or.inl rfl
        · split
          · exact Or.inl rfl
          · split
            · exact Or.inl rfl
            · exact Or.inr ⟨_, rfl⟩
    rcases halt with h | ⟨r, hr⟩
    · exact h
    · exact absurd hr (hfail r)
  · rintro ⟨r, hr⟩
    unfold cancel_booking at hr
    split at hr
    next => simp at hr
    next hrole2 =>
      rcases hfb : findBooking db booking_id with _ | b
      · simp only [hfb] at hr
        simp at hr
      · simp only [hfb] at hr
        split at hr
        next => simp at hr
        next hown =>
          split at hr
          next => simp at hr
          next hst =>
            refine ⟨b, by simp [hfb], not_ne_iff.mp hst, not_ne_iff.mp hown, ?_⟩
            unfold cancel_booking
            rw [if_neg hrole2]
            simp only [hfb]
            rw [if_neg hown, if_neg hst]
  · intro hfail
    have halt : (cancel_booking db u booking_id).2 = db ∨
        ∃ r, (cancel_booking db u booking_id).1 = .ok r := by
      unfold cancel_booking
      split
      · exact Or.inl rfl
      · split
        · exact Or.inl rfl
        · split
          · exact Or.inl rfl
          · split
            · exact Or.inl rfl
            · exact Or.inr ⟨_, rfl⟩
    rcases halt with h | ⟨r, hr⟩
    · exact h
    · exact absurd hr (hfail r)
/-- C1. Generator/validator agreement: every slot start a terminating run of
the slot generator returns is accepted by `create_booking` for the same
provider, service, date and start time on the same snapshot, provided the
caller is a customer and the provider exists with provider role. -/
theorem C1_generator_validator_agreement (fuel : Nat) (db : DB) (u : User)
    (provider_id service_id : Nat) (target_date : Nat) (interval_minutes : Int)
    (res : List Int) (s : Int) (tt : Nat) (addr : String) (amt : Int)
    (hrole : u.role = "customer")
    (hprov : (db.users.find? fun us =>
      us.id == provider_id && us.role == "provider").isSome = true)
    (hgen : get_available_slots_for_date fuel db provider_id service_id
      target_date interval_minutes = some (.ok res))
    (hs : s ∈ res)
    (ht : combine target_date tt = s) :
    ∃ b, (create_booking db u
      (BookingCreate.mk provider_id service_id target_date tt addr amt)).1 =
        .ok b := by
  subst ht
  unfold get_available_slots_for_date at hgen
  rcases hserv : db.services.find? fun sv => sv.id == service_id with _ | service
  · rw [hserv] at hgen
    simp at hgen
  · rw [hserv] at hgen
    simp only [Option.map_eq_some'] at hgen
    obtain ⟨l, hl, hok⟩ := hgen
    have hres : l = res := by
      cases hok
      rfl
    subst hres
    rcases slotWindows_mem db provider_id _ _ _ target_date fuel _ [] l hl _ hs with
      hacc | ⟨w, hw, h1, h2, h3, h4⟩
    · cases hacc
    · obtain ⟨prov, hprovEq⟩ := Option.isSome_iff_exists.mp hprov
      have hE : (availWindows db provider_id
          (pyWeekday target_date + 1)).isEmpty = false := by
        rw [← Bool.not_eq_true]
        simp only [List.isEmpty_iff]
        intro hnil
        rw [hnil] at hw
        cases hw
      have hany : (availWindows db provider_id (pyWeekday target_date + 1)).any
          (fun wa => combine target_date wa.start_time ≤ combine target_date tt &&
            addMinutes (combine target_date tt) service.duration_minutes ≤
              combine target_date wa.end_time) = true := by
        rw [List.any_eq_true]
        exact ⟨w, hw, by simp [h1, h2]⟩
      unfold create_booking
      rw [if_neg (by simp [hrole])]
      simp only [hserv, hprovEq, hE, hany, h3, h4, Bool.false_eq_true, if_false,
        Bool.not_true, if_true]
      exact ⟨_, rfl⟩
/-- A terminating window loop keeps terminating with the same output when
given more fuel. -/
theorem slotLoop_mono (db : DB) (pid : Nat) (ex : List (Int × Int)) (dur : Nat)
    (iv : Int) (wend : Int) :
    ∀ fuel fuel' start acc res, fuel ≤ fuel' →
      slotLoop db pid ex dur iv wend fuel start acc = some res →
      slotLoop db pid ex dur iv wend fuel' start acc = some res := by
  intro fuel
  induction fuel with
  | zero => intro f' start acc res _ h; cases h
  | succ n ih =>
    intro f' start acc res hle h
    obtain ⟨m, rfl⟩ : ∃ m, f' = m + 1 := ⟨f' - 1, by omega⟩
    by_cases hcond : addMinutes start dur ≤ wend
    · simp only [slotLoop, if_pos hcond] at h ⊢
      by_cases hc : slotConflicts ex start (addMinutes start dur) = true
      · rw [if_pos hc] at h ⊢
        exact ih _ _ _ _ (by omega) h
      · rw [if_neg hc] at h ⊢
        by_cases hb : is_blocked_by_timeoff db pid start (addMinutes start dur) = true
        · rw [if_pos hb] at h ⊢
          exact ih _ _ _ _ (by omega) h
        · rw [if_neg hb] at h ⊢
          exact ih _ _ _ _ (by omega) h
    · simp only [slotLoop, if_neg hcond] at h ⊢
      exact h
/-- With a positive step, the window loop terminates once the fuel exceeds
the microsecond gap it has to cross. -/
theorem slotLoop_term (db : DB) (pid : Nat) (ex : List (Int × Int)) (dur : Nat)
    (iv : Int) (wend : Int) (hiv : 0 < iv) :
    ∀ n start acc, (wend + 1 - addMinutes start dur).toNat < n →
      ∃ res, slotLoop db pid ex dur iv wend n start acc = some res := by
  intro n
  induction n with
  | zero => intro start acc h; exact absurd h (Nat.not_lt_zero _)
  | succ m ih =>
    intro start acc h
    by_cases hcond : addMinutes start dur ≤ wend
    · have hm : (wend + 1 - addMinutes (addMinutes start iv) dur).toNat < m := by
        simp only [addMinutes, usPerMinute] at hcond h ⊢
        omega
      simp only [slotLoop, if_pos hcond]
      by_cases hc : slotConflicts ex start (addMinutes start dur) = true
      · rw [if_pos hc]
        exact ih _ _ hm
      · rw [if_neg hc]
        by_cases hb : is_blocked_by_timeoff db pid start (addMinutes start dur) = true
        · rw [if_pos hb]
          exact ih _ _ hm
        · rw [if_neg hb]
          exact ih _ _ hm
    · exact ⟨acc, by simp only [slotLoop, if_neg hcond]⟩
/-- With a positive step, a terminating window loop adds at most
`loopBound` slots to its accumulator. -/
theorem slotLoop_length (db : DB) (pid : Nat) (ex : List (Int × Int)) (dur : Nat)
    (iv : Int) (wend : Int) (hiv : 0 < iv) :
    ∀ fuel start acc res,
      slotLoop db pid ex dur iv wend fuel start acc = some res →
      res.length ≤ acc.length + loopBound wend start dur iv := by
  intro fuel
  induction fuel with
  | zero => intro start acc res h; cases h
  | succ m ih =>
    intro start acc res h
    by_cases hcond : addMinutes start dur ≤ wend
    · simp only [slotLoop, if_pos hcond] at h
      have hbound : loopBound wend (addMinutes start iv) dur iv + 1 ≤
          loopBound wend start dur iv := by
        by_cases hcond' : addMinutes (addMinutes start iv) dur ≤ wend
        · have hstepN : 0 < (iv * (usPerMinute : Int)).toNat := by
            simp only [usPerMinute]
            omega
          have h1 : (iv * (usPerMinute : Int)).toNat ≤
              (wend - addMinutes start dur).toNat := by
            simp only [addMinutes, usPerMinute] at hcond' ⊢
            omega
          have h2 : (wend - addMinutes (addMinutes start iv) dur).toNat =
              (wend - addMinutes start dur).toNat - (iv * (usPerMinute : Int)).toNat := by
            simp only [addMinutes, usPerMinute] at hcond hcond' ⊢
            omega
          unfold loopBound
          rw [if_pos hcond', if_pos hcond, h2, ← Nat.div_eq_sub_div hstepN h1]
        · unfold loopBound
          rw [if_neg hcond', if_pos hcond]
          exact Nat.add_le_add_right (Nat.zero_le _) 1
      split at h
      · have := ih _ _ _ h
        omega
      · split at h
        · have := ih _ _ _ h
          omega
        · have := ih _ _ _ h
          simp only [List.length_append, List.length_cons, List.length_nil] at this
          omega
    · simp only [slotLoop, if_neg hcond] at h
      cases h
      omega
/-- A terminating window fold keeps terminating with the same output when
given more fuel. -/
theorem slotWindows_mono (db : DB) (pid : Nat) (ex : List (Int × Int)) (dur : Nat)
    (iv : Int) (date : Nat) :
    ∀ ws fuel fuel' acc res, fuel ≤ fuel' →
      slotWindows db pid ex dur iv date fuel ws acc = some res →
      slotWindows db pid ex dur iv date fuel' ws acc = some res := by
  intro ws
  induction ws with
  | nil => intro fuel fuel' acc res _ h; exact h
  | cons w ws ih =>
    intro fuel fuel' acc res hle h
    simp only [slotWindows] at h ⊢
    rcases hl : slotLoop db pid ex dur iv (combine date w.end_time) fuel
        (combine date w.start_time) acc with _ | acc'
    · rw [hl] at h
      cases h
    · rw [hl] at h
      rw [slotLoop_mono db pid ex dur iv (combine date w.end_time) fuel fuel' _ _ _
        hle hl]
      exact ih _ _ _ _ hle h
/-- With a positive step and enough fuel for each window, the window fold
terminates, and its output is bounded by the per-window bounds summed. -/
theorem slotWindows_term (db : DB) (pid : Nat) (ex : List (Int × Int)) (dur : Nat)
    (iv : Int) (date : Nat) (hiv : 0 < iv) :
    ∀ ws acc fuel, (∀ w ∈ ws, windowFuel date dur w ≤ fuel) →
      ∃ res, slotWindows db pid ex dur iv date fuel ws acc = some res ∧
        res.length ≤ acc.length + (ws.map fun w =>
          loopBound (combine date w.end_time) (combine date w.start_time) dur iv).sum := by
  intro ws
  induction ws with
  | nil =>
    intro acc fuel _
    exact ⟨acc, rfl, by simp⟩
  | cons w ws ih =>
    intro acc fuel hf
    have hwf : (combine date w.end_time + 1 -
        addMinutes (combine date w.start_time) dur).toNat < fuel := by
      have := hf w (List.mem_cons_self _ _)
      unfold windowFuel at this
      omega
    obtain ⟨acc', hacc'⟩ := slotLoop_term db pid ex dur iv (combine date w.end_time)
      hiv fuel (combine date w.start_time) acc hwf
    have hlen := slotLoop_length db pid ex dur iv (combine date w.end_time) hiv
      fuel (combine date w.start_time) acc acc' hacc'
    obtain ⟨res, hres, hreslen⟩ := ih acc' fuel
      (fun w' hw' => hf w' (List.mem_cons_of_mem _ hw'))
    refine ⟨res, ?_, ?_⟩
    · simp only [slotWindows, hacc']
      exact hres
    · simp only [List.map_cons, List.sum_cons]
      omega
/-- C9 amended. For every input with a positive `interval_minutes`, slot
generation terminates (a fuel bound exists past which the result is a fixed
value) and the generated list is finite, at most `slotsBound` long. -/
theorem C9_termination (db : DB) (provider_id service_id target_date : Nat)
    (interval_minutes : Int) (hiv : 1 ≤ interval_minutes) :
    ∃ fuel resE, (∀ f, fuel ≤ f →
        get_available_slots_for_date f db provider_id service_id target_date
          interval_minutes = some resE) ∧
      ∀ l, resE = .ok l →
        l.length ≤ slotsBound db provider_id service_id target_date interval_minutes := by
  rcases hserv : db.services.find? fun s => s.id == service_id with _ | service
  · refine ⟨0, .error "Service not found", ?_, ?_⟩
    · intro f _
      unfold get_available_slots_for_date
      rw [hserv]
    · intro l hl
      cases hl
  · have hdur : serviceDuration db service_id = service.duration_minutes := by
      unfold serviceDuration
      rw [hserv]
    obtain ⟨res, hres, hlen⟩ := slotWindows_term db provider_id
      (get_provider_bookings_on_date db provider_id target_date)
      service.duration_minutes interval_minutes target_date (by omega)
      (availWindows db provider_id (pyWeekday target_date + 1)) []
      (((availWindows db provider_id (pyWeekday target_date + 1)).map
        (windowFuel target_date service.duration_minutes)).sum)
      (fun w hw => List.single_le_sum (fun x _ => Nat.zero_le x) _
        (List.mem_map_of_mem _ hw))
    refine ⟨((availWindows db provider_id (pyWeekday target_date + 1)).map
      (windowFuel target_date service.duration_minutes)).sum, .ok res, ?_, ?_⟩
    · intro f hf
      have hshape : get_available_slots_for_date f db provider_id service_id
          target_date interval_minutes =
          (slotWindows db provider_id
            (get_provider_bookings_on_date db provider_id target_date)
            service.duration_minutes interval_minutes target_date f
            (availWindows db provider_id (pyWeekday target_date + 1)) []).map
              Except.ok := by
        unfold get_available_slots_for_date
        rw [hserv]
      rw [hshape,
        slotWindows_mono db provider_id _ _ _ target_date _ _ f _ _ hf hres]
      rfl
    · intro l hl
      have hl' : res = l := by
        cases hl
        rfl
      subst hl'
      unfold slotsBound
      rw [hdur]
      simpa using hlen
/-- C9 counterexample. With `interval_minutes = 0` on the scenario-1
snapshot, the generator's `while` loop never advances: no amount of fuel
makes the run terminate, refuting termination for every input. -/
theorem C9_nontermination_cex :
    ¬ ∃ fuel res, get_available_slots_for_date fuel mondayOpenDB 1 1 7 0 = some res := by
  rintro ⟨fuel, res, h⟩
  have hnone : slotLoop mondayOpenDB 1 [] 60 0 (combine 7 61200000000) fuel
      (combine 7 32400000000) [] = none :=
    slotLoop_none_of_nonpos mondayOpenDB 1 [] 60 0 (combine 7 61200000000)
      (by decide) fuel (combine 7 32400000000) [] (by decide)
  have hgen : get_available_slots_for_date fuel mondayOpenDB 1 1 7 0 = none := by
    show (slotWindows mondayOpenDB 1 [] 60 0 7 fuel
      [ProviderAvailability.mk 1 1 32400000000 61200000000 true] []).map Except.ok = none
    simp only [slotWindows, hnone]
    rfl
  rw [hgen] at h
  cases h
/-- C9 witness: the amended statement applied at the scenario-1 snapshot
with the default 30-minute step. -/
theorem C9_termination_witness :
    ∃ fuel resE, (∀ f, fuel ≤ f →
        get_available_slots_for_date f mondayOpenDB 1 1 7 30 = some resE) ∧
      ∀ l, resE = .ok l → l.length ≤ slotsBound mondayOpenDB 1 1 7 30 :=
  C9_termination mondayOpenDB 1 1 7 30 (by decide)
/-- C5 witness: containment instantiated at the scenario-1 snapshot and its
first generated slot, 09:00. -/
theorem C5_slot_containment_witness :
    ∃ service, mondayOpenDB.services.find? (fun sv => sv.id == 1) = some service ∧
      ∃ w, w ∈ mondayOpenDB.availabilities ∧ w.provider_id = 1 ∧
        w.weekday = pyWeekday 7 + 1 ∧ w.is_active = true ∧
        combine 7 w.start_time ≤ combine 7 32400000000 ∧
        addMinutes (combine 7 32400000000) service.duration_minutes ≤
          combine 7 w.end_time :=
  C5_slot_containment 20 mondayOpenDB 1 1 7 30 scenario1Slots
    (combine 7 32400000000) rfl (by decide)
/-- C1 witness: the scenario-1 snapshot's first generated slot, 09:00, is
accepted by the validator for the same provider, service and date. -/
theorem C1_generator_validator_agreement_witness :
    ∃ b, (create_booking mondayOpenDB (User.mk 10 "customer")
      (BookingCreate.mk 1 1 7 32400000000 "a" 0)).1 = .ok b :=
  C1_generator_validator_agreement 20 mondayOpenDB (User.mk 10 "customer")
    1 1 7 30 scenario1Slots (combine 7 32400000000) 32400000000 "a" 0
    rfl rfl rfl (by decide) rfl
end SBP

